import Mathlib

/-!
Shallow embedding of the posterior-predictive-check (PPC) and plotting
computations of `src/PyP-BEAGLE/bangs_photometry.py` (with helpers from
`src/PyP-BANGS/bangs_utils.py`).  Machine floating-point values are modelled
as rationals and numpy arrays as lists; every definition mirrors the
corresponding Python expression.
-/

namespace PypBeagle

/-- Threshold `p_value_lim = 0.05` (bangs_photometry.py, line 32). -/
def p_value_lim : ℚ := 5 / 100

/-- Model of `np.min` over an array of rationals (the code only ever applies
it to nonempty arrays; we return `0` on `[]`, an input numpy rejects). -/
def listMin : List ℚ → ℚ
  | [] => 0
  | x :: xs => xs.foldl min x

/-- Model of `np.max` over an array of rationals. -/
def listMax : List ℚ → ℚ
  | [] => 0
  | x :: xs => xs.foldl max x

/-- Model of `np.count_nonzero` applied to a boolean array. -/
def countTrue (l : List Bool) : ℕ := (l.filter (fun b => b)).length

/-- Model of `np.mean`. -/
def listMean (l : List ℚ) : ℚ := l.sum / (l.length : ℚ)

/-- The data of one photometric band as consumed by
`Photometry.plot_replicated_data`: the observed flux `obs_flux[i]` and error
`obs_flux_err[i]` (both already scaled to nanoJy), the per-draw noiseless
fluxes `noiseless_flux[i, :]` and the per-draw replicated fluxes
`replic_data.data.field(i+1)/1.E-09`. -/
structure Band where
  obsF : ℚ
  obsErr : ℚ
  noiseless : List ℚ
  replic : List ℚ
  deriving DecidableEq

/-- Observed discrepancy of one band, per draw (line 460):
`(obs_flux[i].repeat(n_replicated)-noiseless_flux[i, :])**2 /
obs_flux_err[i].repeat(n_replicated)**2`. -/
def obs_discr_vec (b : Band) : List ℚ :=
  b.noiseless.map (fun x => (b.obsF - x) ^ 2 / b.obsErr ^ 2)

/-- Replicated discrepancy of one band, per draw (line 461):
`(replic_data.data.field(i+1)/1.E-09-noiseless_flux[i, :])**2 /
obs_flux_err[i].repeat(n_replicated)**2`. -/
def repl_discr_vec (b : Band) : List ℚ :=
  (b.replic.zip b.noiseless).map (fun p => (p.1 - p.2) ^ 2 / b.obsErr ^ 2)

/-- Entry `p_value_bands[i]` (lines 455-465): the array is zero-initialised
and the body `1. * np.count_nonzero((repl_discr > obs_discr)) / n_replicated`
runs only under the guard `obs_flux_err[i] > 0.`. -/
def p_value_band (b : Band) (n_replicated : ℕ) : ℚ :=
  if 0 < b.obsErr then
    (countTrue (List.zipWith (fun r o => decide (r > o))
        (repl_discr_vec b) (obs_discr_vec b)) : ℚ) / (n_replicated : ℚ)
  else 0

/-- The array `p_value_bands` of per-band p-values. -/
def p_value_bands (bands : List Band) (n_replicated : ℕ) : List ℚ :=
  bands.map (fun b => p_value_band b n_replicated)

/-- Indices selected by `loc = np.where(p_value_bands <= p_value_lim)[0]`
(line 468). -/
def below_threshold_indices (ps : List ℚ) : List ℕ :=
  (List.range ps.length).filter (fun i => decide (ps.getD i 0 ≤ p_value_lim))

/-- Band selection `ok_bands = np.where(obs_flux_err > 0.)[0]` (line 452),
realised as the sublist of bands with positive observed error. -/
def ok_bands (bands : List Band) : List Band :=
  bands.filter (fun b => decide (0 < b.obsErr))

/-- Model of `np.sum(..., axis=0)` over a stack of per-draw vectors; the empty
stack yields the zero vector of length `n`. -/
def sumVecs (n : ℕ) (vs : List (List ℚ)) : List ℚ :=
  vs.foldl (fun acc v => List.zipWith (fun a b => a + b) acc v) (List.replicate n 0)

/-- Joint observed discrepancy per draw (line 475): the sum over `ok_bands`
of the per-band observed discrepancies. -/
def joint_obs_discr (n : ℕ) (bands : List Band) : List ℚ :=
  sumVecs n ((ok_bands bands).map obs_discr_vec)

/-- Joint replicated discrepancy per draw (line 476).  The source indexes the
zero-initialised matrix `replic_fluxes` at the rows `ok_bands`, and those rows
were filled (at line 463) with the replicated fluxes because they satisfy the
`obs_flux_err[i] > 0.` guard; so restricting each selected band's true
replicated flux vector is equivalent. -/
def joint_repl_discr (n : ℕ) (bands : List Band) : List ℚ :=
  sumVecs n ((ok_bands bands).map repl_discr_vec)

/-- Joint p-value (lines 478-479):
`1. * np.count_nonzero((repl_discr > obs_discr)) / n_replicated`. -/
def joint_p_value (n : ℕ) (bands : List Band) : ℚ :=
  (countTrue (List.zipWith (fun r o => decide (r > o))
      (joint_repl_discr n bands) (joint_obs_discr n bands)) : ℚ) / (n : ℚ)

/-- Division that records whether a division by zero is evaluated: `none`
exactly when the denominator is zero. -/
def qdiv (a b : ℚ) : Option ℚ := if b = 0 then none else some (a / b)

/-- Sequencing of a fallible map over a list: `none` as soon as one element
fails. -/
def optionMapList {α β : Type} (f : α → Option β) : List α → Option (List β)
  | [] => some []
  | x :: xs =>
    match f x with
    | none => none
    | some y =>
      match optionMapList f xs with
      | none => none
      | some ys => some (y :: ys)

/-- Division-checked variant of `obs_discr_vec`: every division the source
evaluates there has denominator `obs_flux_err[i]**2`. -/
def obs_discr_checked (b : Band) : Option (List ℚ) :=
  optionMapList (fun x => qdiv ((b.obsF - x) ^ 2) (b.obsErr ^ 2)) b.noiseless

/-- Division-checked variant of `repl_discr_vec`. -/
def repl_discr_checked (b : Band) : Option (List ℚ) :=
  optionMapList (fun p => qdiv ((p.1 - p.2) ^ 2) (b.obsErr ^ 2)) (b.replic.zip b.noiseless)

/-- Division-checked per-band p-value (lines 455-465): in the `else` branch no
division is evaluated, the entry keeps its initialisation value `0`. -/
def p_value_band_checked (b : Band) (n_replicated : ℕ) : Option ℚ :=
  if 0 < b.obsErr then
    match obs_discr_checked b, repl_discr_checked b with
    | some od, some rd =>
      some ((countTrue (List.zipWith (fun r o => decide (r > o)) rd od) : ℚ) / (n_replicated : ℚ))
    | _, _ => none
  else some 0

/-- Division-checked joint p-value (lines 475-479): the joint sums index only
the `ok_bands` rows, so only their errors appear as denominators. -/
def joint_p_value_checked (n : ℕ) (bands : List Band) : Option ℚ :=
  match optionMapList obs_discr_checked (ok_bands bands),
      optionMapList repl_discr_checked (ok_bands bands) with
  | some ods, some rds =>
    some ((countTrue (List.zipWith (fun r o => decide (r > o))
        (sumVecs n rds) (sumVecs n ods)) : ℚ) / (n : ℚ))
  | _, _ => none

/-- Division-checked mean residual (lines 489-495):
`mean_residual = (mean_replic_fluxes-obs_flux)/obs_flux_err` divides by the
observed error of every band, with no mask. -/
def mean_residual_checked (bands : List Band) : Option (List ℚ) :=
  optionMapList (fun b => qdiv (listMean b.replic - b.obsF) b.obsErr) bands

/-- Division-checked residual matrix (lines 498-500):
`residual_fluxes = (replic_fluxes-obs_flux...)/obs_flux_err...` divides every
band's replicated fluxes by that band's observed error, with no mask. -/
def residual_fluxes_checked (bands : List Band) : Option (List (List ℚ)) :=
  optionMapList (fun b => optionMapList (fun r => qdiv (r - b.obsF) b.obsErr) b.replic) bands

/-- Sample covariance of two equal-length draws (the `np.cov` default
normalises by `N - 1`). -/
def covPair (x y : List ℚ) : ℚ :=
  (((x.zip y).map (fun p => (p.1 - listMean x) * (p.2 - listMean y))).sum) / ((x.length : ℚ) - 1)

/-- Sample covariance matrix across bands, as `np.cov(residual_fluxes)`. -/
def covMatrix (rows : List (List ℚ)) : List (List ℚ) :=
  rows.map (fun ri => rows.map (fun rj => covPair ri rj))

/-- Division-checked residual covariance (line 502): `np.cov` consumes the
residual matrix, so it fails whenever building that matrix already evaluated a
division by a zero observed error. -/
def residual_covar_checked (bands : List Band) : Option (List (List ℚ)) :=
  (residual_fluxes_checked bands).map covMatrix

/-- Modelled from the spec: the tuple returned by `prepare_violin_plot`
(imported from `bangs_utils`, whose file in this snapshot does not contain
it).  Per spec section 4.1 it returns the evaluable density, a normalisation
equal to the density at the weighted median, the weighted median, and the
evaluation grid (support values and density values). -/
structure ViolinInfo where
  pdf : ℚ → ℚ
  norm : ℚ
  median : ℚ
  x_plot : List ℚ
  y_plot : List ℚ

/-- Per-band outcome of the first loop of `Photometry.plot_marginal`
(lines 205-229): the entries `has_pdf[i]`, `median_flux[i]`, `min_flux[i]`,
`max_flux[i]` and, in the non-degenerate case, the violin data. -/
structure BandResult where
  has_pdf : Bool
  median_flux : ℚ
  min_flux : ℚ
  max_flux : ℚ
  info : Option ViolinInfo

/-- Body of the first loop of `Photometry.plot_marginal` for one band
(lines 205-229).  `pvp` stands for the external `prepare_violin_plot`; when
`min_x == max_x` the code sets `has_pdf[i] = False`,
`median_flux[i] = min_x` and `continue`s without calling it. -/
def marginalBand (pvp : List ℚ → List ℚ → ViolinInfo) (xdata weights : List ℚ) :
    BandResult :=
  let min_x := listMin xdata
  let max_x := listMax xdata
  if min_x = max_x then
    ⟨false, min_x, min_x, max_x, none⟩
  else
    let v := pvp xdata weights
    ⟨true, v.median, min_x, max_x, some v⟩

/-- The glyphs the second loop of `plot_marginal` (lines 234-265) draws for
one band. -/
inductive Glyph where
  | violin
  | medianLine
  | pointMarker
  deriving DecidableEq

/-- Second loop of `plot_marginal`: `fill_betweenx` (the violin) and the
median segment are drawn only under `if has_pdf[i]:`; the point marker at
`median_flux[i]` is always drawn. -/
def bandGlyphs (r : BandResult) : List Glyph :=
  if r.has_pdf then [Glyph.violin, Glyph.medianLine, Glyph.pointMarker]
  else [Glyph.pointMarker]

/-- Consecutive wavelength spacings
`np.array(wl_eff[1:])-np.array(wl_eff[0:-1])` (line 231). -/
def wl_diffs (wl : List ℚ) : List ℚ :=
  List.zipWith (fun a b => a - b) wl.tail wl

/-- `delta_wl = np.concatenate(([delta_wl[0]], delta_wl))` (line 232): the
spacing list with its first entry duplicated. -/
def delta_wl (wl : List ℚ) : List ℚ :=
  (wl_diffs wl).headD 0 :: wl_diffs wl

/-- The spacing used for band `i` (lines 236-238): `dwl = delta_wl[i]`, then
`if i > 1: dwl = np.min(delta_wl[i-1:i])` - a minimum over a one-element
slice. -/
def dwl (wl : List ℚ) (i : ℕ) : ℚ :=
  if 1 < i then listMin (((delta_wl wl).drop (i - 1)).take 1)
  else (delta_wl wl).getD i 0

/-- Width scale `w = 0.4 * dwl / _max_y[i]` (line 242), where `_max_y[i]` is
the maximum of the band's density values `y_plot[i]` (line 229). -/
def w_scale (wl : List ℚ) (i : ℕ) (max_y : ℚ) : ℚ :=
  4 / 10 * dwl wl i / max_y

/-- Half-width of the violin at each support value: the density values scaled
by `w` (the `y_plot[i]*w` of lines 248-249). -/
def halfWidths (w : ℚ) (y_plot : List ℚ) : List ℚ :=
  y_plot.map (fun y => y * w)

/-- Left outline `y_grid - y_plot[i]*w` of `fill_betweenx` (line 248), with
`y_grid` the constant `wl_eff[i]`. -/
def violinLeft (wl_i w : ℚ) (y_plot : List ℚ) : List ℚ :=
  y_plot.map (fun y => wl_i - y * w)

/-- Right outline `y_grid + y_plot[i]*w` of `fill_betweenx` (line 249). -/
def violinRight (wl_i w : ℚ) (y_plot : List ℚ) : List ℚ :=
  y_plot.map (fun y => wl_i + y * w)

/-- Written from the claim's words, for comparison with the source: the
minimum inter-band wavelength spacing. -/
def spec_min_inter_band_spacing (wl : List ℚ) : ℚ :=
  listMin (wl_diffs wl)

/-- Lower ends `obs_flux[ok]-obs_flux_err[ok]` of the observed error bars,
over the bands with positive error (line 270). -/
def obs_lower_bounds (obs_flux obs_flux_err : List ℚ) : List ℚ :=
  ((obs_flux.zip obs_flux_err).filter (fun p => decide (0 < p.2))).map (fun p => p.1 - p.2)

/-- Upper ends `obs_flux[ok]+obs_flux_err[ok]` of the observed error bars
(used only by the spec-side axis rule below; the source never forms them). -/
def obs_upper_bounds (obs_flux obs_flux_err : List ℚ) : List ℚ :=
  ((obs_flux.zip obs_flux_err).filter (fun p => decide (0 < p.2))).map (fun p => p.1 + p.2)

/-- The y-axis limits of `plot_marginal` (lines 268-277):
`yMax = np.max(max_flux)`,
`yMin = np.min(np.concatenate((obs_flux[ok]-obs_flux_err[ok], min_flux)))`,
then both are padded by `dY * 0.1`. -/
def axis_y_limits (obs_flux obs_flux_err min_flux max_flux : List ℚ) : ℚ × ℚ :=
  let yMax := listMax max_flux
  let yMin := listMin (obs_lower_bounds obs_flux obs_flux_err ++ min_flux)
  let dY := yMax - yMin
  (yMin - dY * (1 / 10), yMax + dY * (1 / 10))

/-- Written from the claim's words, for comparison with the source: limits
from the union of the observed range (observed flux minus/plus its error over
bands with positive error) and the predicted range, padded by 10% of the
combined range on each side. -/
def spec_axis_y_limits (obs_flux obs_flux_err min_flux max_flux : List ℚ) : ℚ × ℚ :=
  let hi := listMax (obs_upper_bounds obs_flux obs_flux_err ++ max_flux)
  let lo := listMin (obs_lower_bounds obs_flux obs_flux_err ++ min_flux)
  let d := hi - lo
  (lo - d * (1 / 10), hi + d * (1 / 10))

/-- Externally visible steps of a plotting call. -/
inductive PlotEffect where
  | compute
  | write
  | display
  deriving DecidableEq

/-- Control flow of `Photometry.plot_marginal` (lines 151-157 and 352-359):
`if plot_exists(plot_name) and not replot and not show: return` before any
computation; otherwise the plot is computed and then shown (`show`) or saved.
The boolean `already` is the result of the external presence test
`plot_exists(plot_name)`. -/
def plot_marginal_effects (already replot showPlot : Bool) : List PlotEffect :=
  if already && !replot && !showPlot then []
  else PlotEffect.compute :: (if showPlot then [PlotEffect.display] else [PlotEffect.write])

/-- Control flow of `Photometry.plot_replicated_data` (lines 393-399 and
736-740): `if plot_exists(plot_name) and not replot: return`, otherwise
compute and save. -/
def plot_replicated_effects (already replot : Bool) : List PlotEffect :=
  if already && !replot then []
  else [PlotEffect.compute, PlotEffect.write]

/-- Marker styling (lines 467-469):
`markers = np.array("o").repeat(n_bands)`, then
`loc = np.where(p_value_bands <= p_value_lim)[0]; markers[loc] = "o"`. -/
def style_markers (p_values : List ℚ) : List String :=
  let markers := List.replicate p_values.length "o"
  (List.range p_values.length).map
    (fun i => if p_values.getD i 0 ≤ p_value_lim then "o" else markers.getD i "o")

/-- One catalogue row as read by `ObservedCatalogue.extract_fluxes`: the
values of the per-band flux columns, the per-band flux-error columns, and the
optional `aper_corr` column. -/
structure CatalogueRow where
  flux_cols : List ℚ
  flux_err_cols : List ℚ
  aper_corr : ℚ

/-- Replace the row's `aper_corr` column value. -/
def set_aper_corr (row : CatalogueRow) (a : ℚ) : CatalogueRow :=
  ⟨row.flux_cols, row.flux_err_cols, a⟩

/-- The filter configuration used by `extract_fluxes`: the flux units and the
per-band minimum relative errors. -/
structure FiltersData where
  units : ℚ
  min_rel_err : List ℚ

/-- The constant `Jy = np.float32(1.E-23)` (line 28). -/
def Jy : ℚ := 1 / 10 ^ 23

/-- `ObservedCatalogue.extract_fluxes` (lines 57-103):
`flux[j] = row[name] * aper_corr * filters.units / Jy`, likewise for the
error, and when the error is positive the minimum relative error is added in
quadrature: `flux_err[j] = sqrt((flux_err[j]/flux[j])**2 + min_rel_err[j]**2)
* flux[j]`.  The square root (irrational on ℚ) is passed in as `sqrtQ`; every
claim below holds for an arbitrary choice of it. -/
def extract_fluxes (sqrtQ : ℚ → ℚ) (filters : FiltersData) (row : CatalogueRow)
    (aper_corr : ℚ) : List ℚ × List ℚ :=
  let flux := row.flux_cols.map (fun f => f * aper_corr * filters.units / Jy)
  let flux_err0 := row.flux_err_cols.map (fun e => e * aper_corr * filters.units / Jy)
  let flux_err := ((flux.zip flux_err0).zip filters.min_rel_err).map
    (fun p =>
      if 0 < p.1.2 then sqrtQ ((p.1.2 / p.1.1) ^ 2 + p.2 ^ 2) * p.1.1 else p.1.2)
  (flux, flux_err)

/-- The local aperture-correction factor both plotters compute (lines 164-167
and 414-417): `aper_corr = 10.**(-0.4*observation[0]['aper_corr'])` when the
column is present, else `1.`.  The power function (irrational on ℚ) is passed
in as `powQ`.  The factor is bound to a local variable and never used
afterwards. -/
def plot_aper_corr (powQ : ℚ → ℚ) (has_col : Bool) (row : CatalogueRow) : ℚ :=
  if has_col then powQ (-(4 / 10) * row.aper_corr) else 1

/-- The observed fluxes and errors both plotters use (lines 170-172 and
420-422): `self.observed_catalogue.extract_fluxes(self.filters, ID)` - called
with the default `aper_corr=1.` - followed by `*= 1.E+09`. -/
def plotter_obs_fluxes (sqrtQ : ℚ → ℚ) (filters : FiltersData) (row : CatalogueRow) :
    List ℚ × List ℚ :=
  let fe := extract_fluxes sqrtQ filters row 1
  (fe.1.map (fun f => f * 10 ^ 9), fe.2.map (fun e => e * 10 ^ 9))

/-- A trivial stand-in for the external density estimator, used only to
instantiate theorems at concrete inputs. -/
def pvpConst : List ℚ → List ℚ → ViolinInfo :=
  fun _ _ => ⟨fun _ => 0, 0, 0, [], []⟩

/-- Counting `true` entries distributes over `cons`. -/
theorem countTrue_cons (b : Bool) (l : List Bool) :
    countTrue (b :: l) = (if b then 1 else 0) + countTrue l := by
  cases b <;> simp [countTrue, List.filter_cons, Nat.add_comm]

/-- The count of strict exceedances produced by the vectorised comparison of
the two discrepancy arrays equals the length of the filtered draw list. -/
theorem countTrue_repl_obs (obsF e : ℚ) :
    ∀ nf rf : List ℚ,
      countTrue (List.zipWith (fun r o => decide (r > o))
          ((rf.zip nf).map (fun p => (p.1 - p.2) ^ 2 / e ^ 2))
          (nf.map (fun x => (obsF - x) ^ 2 / e ^ 2)))
        = ((nf.zip rf).filter
            (fun p => decide ((p.2 - p.1) ^ 2 / e ^ 2 > (obsF - p.1) ^ 2 / e ^ 2))).length
  | [], rf => by cases rf <;> simp [countTrue]
  | a :: nf, [] => by simp [countTrue]
  | a :: nf, c :: rf => by
    have ih := countTrue_repl_obs obsF e nf rf
    simp only [List.zip_cons_cons, List.map_cons, List.zipWith_cons_cons, List.filter_cons,
      countTrue_cons]
    by_cases h : (c - a) ^ 2 / e ^ 2 > (obsF - a) ^ 2 / e ^ 2
    · simp [h]
      simp at ih
      omega
    · simp [h]
      simp at ih
      omega

/-- Comparing an array strictly against itself yields no exceedance. -/
theorem zipWith_gt_self : ∀ l : List ℚ,
    List.zipWith (fun r o => decide (r > o)) l l = List.replicate l.length false
  | [] => rfl
  | x :: xs => by
    simp [List.replicate_succ, zipWith_gt_self xs, lt_irrefl]

/-- An all-`false` array has no nonzero entry. -/
theorem countTrue_replicate_false : ∀ n : ℕ, countTrue (List.replicate n false) = 0
  | 0 => rfl
  | n + 1 => by simp [List.replicate_succ, countTrue_cons, countTrue_replicate_false n]

/-- Claim C1: in the PPC engine, for every band with observed error > 0, the
per-band p-value is the fraction of replicated draws whose discrepancy
strictly exceeds the observed discrepancy; and when the replicated and
observed discrepancies coincide on every draw the p-value is exactly 0, ties
not counting. -/
theorem claim_C1 (b : Band) (n : ℕ) (h : 0 < b.obsErr) :
    p_value_band b n =
      (((b.noiseless.zip b.replic).filter
          (fun p => decide
            ((p.2 - p.1) ^ 2 / b.obsErr ^ 2 > (b.obsF - p.1) ^ 2 / b.obsErr ^ 2))).length : ℚ)
        / (n : ℚ)
    ∧ (repl_discr_vec b = obs_discr_vec b → p_value_band b n = 0) := by
  constructor
  · unfold p_value_band repl_discr_vec obs_discr_vec
    rw [if_pos h, countTrue_repl_obs]
  · intro he
    unfold p_value_band
    rw [if_pos h, he, zipWith_gt_self, countTrue_replicate_false]
    simp

/-- Witness for C1: the spec scenario `obs_flux=[10]`, `obs_err=[1]`,
`noiseless=[10]*3`, `replicated=[10]*3` gives p-value exactly 0. -/
theorem claim_C1_witness :
    p_value_band ⟨10, 1, [10, 10, 10], [10, 10, 10]⟩ 3 = 0 :=
  (claim_C1 ⟨10, 1, [10, 10, 10], [10, 10, 10]⟩ 3 (by norm_num)).2
    (by simp [repl_discr_vec, obs_discr_vec])

/-- Inserting a band with zero observed error does not change the selection
`ok_bands`. -/
theorem ok_bands_insert_zero (b0 : Band) (h : b0.obsErr = 0) (l1 l2 : List Band) :
    ok_bands (l1 ++ b0 :: l2) = ok_bands (l1 ++ l2) := by
  simp [ok_bands, List.filter_append, List.filter_cons, h, lt_irrefl]

/-- Claim C2: the joint discrepancies are summed over exactly the bands with
observed error > 0, so adding a band whose observed error is 0 anywhere in
the band list changes neither the joint observed nor the joint replicated
discrepancy sums, nor the joint p-value. -/
theorem claim_C2 (b0 : Band) (h : b0.obsErr = 0) (n : ℕ) (l1 l2 : List Band) :
    joint_obs_discr n (l1 ++ b0 :: l2) = joint_obs_discr n (l1 ++ l2) ∧
    joint_repl_discr n (l1 ++ b0 :: l2) = joint_repl_discr n (l1 ++ l2) ∧
    joint_p_value n (l1 ++ b0 :: l2) = joint_p_value n (l1 ++ l2) := by
  have hok := ok_bands_insert_zero b0 h l1 l2
  refine ⟨?_, ?_, ?_⟩ <;>
    simp [joint_obs_discr, joint_repl_discr, joint_p_value, hok]

/-- Witness for C2: adding a zero-error band to a one-band list leaves the
joint p-value unchanged. -/
theorem claim_C2_witness :
    joint_p_value 2 [⟨10, 1, [10, 11], [12, 9]⟩, ⟨5, 0, [1, 2], [3, 4]⟩]
      = joint_p_value 2 [⟨10, 1, [10, 11], [12, 9]⟩] :=
  (claim_C2 ⟨5, 0, [1, 2], [3, 4]⟩ rfl 2 [⟨10, 1, [10, 11], [12, 9]⟩] []).2.2

/-- Folding `min` over an all-equal list returns the common value. -/
theorem foldl_min_all_eq (c : ℚ) :
    ∀ (xs : List ℚ) (a : ℚ), (∀ x ∈ xs, x = c) → a = c → xs.foldl min a = c
  | [], _, _, ha => ha
  | x :: xs, a, hall, ha =>
    foldl_min_all_eq c xs (min a x)
      (fun y hy => hall y (List.mem_cons_of_mem _ hy))
      (by rw [ha, hall x (List.mem_cons_self x xs), min_self])

/-- Folding `max` over an all-equal list returns the common value. -/
theorem foldl_max_all_eq (c : ℚ) :
    ∀ (xs : List ℚ) (a : ℚ), (∀ x ∈ xs, x = c) → a = c → xs.foldl max a = c
  | [], _, _, ha => ha
  | x :: xs, a, hall, ha =>
    foldl_max_all_eq c xs (max a x)
      (fun y hy => hall y (List.mem_cons_of_mem _ hy))
      (by rw [ha, hall x (List.mem_cons_self x xs), max_self])

/-- The minimum of a nonempty all-equal list is the common value. -/
theorem listMin_all_eq (l : List ℚ) (c : ℚ) (hne : l ≠ []) (hall : ∀ x ∈ l, x = c) :
    listMin l = c := by
  cases l with
  | nil => exact absurd rfl hne
  | cons x xs =>
    exact foldl_min_all_eq c xs x
      (fun y hy => hall y (List.mem_cons_of_mem _ hy)) (hall x (List.mem_cons_self x xs))

/-- The maximum of a nonempty all-equal list is the common value. -/
theorem listMax_all_eq (l : List ℚ) (c : ℚ) (hne : l ≠ []) (hall : ∀ x ∈ l, x = c) :
    listMax l = c := by
  cases l with
  | nil => exact absurd rfl hne
  | cons x xs =>
    exact foldl_max_all_eq c xs x
      (fun y hy => hall y (List.mem_cons_of_mem _ hy)) (hall x (List.mem_cons_self x xs))

/-- Claim C3: for a band whose posterior-draw flux sample has all values
identical, `plot_marginal` takes the degenerate branch: `has_pdf` is false,
the representative (median) value is the constant sample value, only the
point marker is rendered, and the density estimator is never consulted (the
result does not depend on it). -/
theorem claim_C3 (pvp : List ℚ → List ℚ → ViolinInfo) (xdata weights : List ℚ) (c : ℚ)
    (hne : xdata ≠ []) (hall : ∀ x ∈ xdata, x = c) :
    (marginalBand pvp xdata weights).has_pdf = false ∧
    (marginalBand pvp xdata weights).median_flux = c ∧
    bandGlyphs (marginalBand pvp xdata weights) = [Glyph.pointMarker] ∧
    ∀ pvp2, marginalBand pvp2 xdata weights = marginalBand pvp xdata weights := by
  have hmin := listMin_all_eq xdata c hne hall
  have hmax := listMax_all_eq xdata c hne hall
  have heq : listMin xdata = listMax xdata := by rw [hmin, hmax]
  have hres : marginalBand pvp xdata weights
      = ⟨false, listMin xdata, listMin xdata, listMax xdata, none⟩ := by
    simp only [marginalBand]
    rw [if_pos heq]
  refine ⟨by rw [hres], by rw [hres]; exact hmin, by rw [hres]; rfl, ?_⟩
  intro pvp2
  rw [hres]
  simp only [marginalBand]
  rw [if_pos heq]

/-- Witness for C3: the spec scenario `sample = [5,5,5,5]`,
`weights = [1,1,1,1]` is flagged degenerate with median 5. -/
theorem claim_C3_witness :
    (marginalBand pvpConst [5, 5, 5, 5] [1, 1, 1, 1]).has_pdf = false ∧
    (marginalBand pvpConst [5, 5, 5, 5] [1, 1, 1, 1]).median_flux = 5 := by
  have h := claim_C3 pvpConst [5, 5, 5, 5] [1, 1, 1, 1] 5 (by simp) (by simp)
  exact ⟨h.1, h.2.1⟩

/-- A fallible map over a list succeeds when every element succeeds. -/
theorem optionMapList_isSome {α β : Type} (f : α → Option β) :
    ∀ l : List α, (∀ x ∈ l, (f x).isSome) → (optionMapList f l).isSome
  | [], _ => rfl
  | x :: xs, h => by
    have hx := h x (List.mem_cons_self x xs)
    have hxs := optionMapList_isSome f xs (fun y hy => h y (List.mem_cons_of_mem _ hy))
    cases hfx : f x with
    | none => rw [hfx] at hx; simp at hx
    | some y =>
      cases hml : optionMapList f xs with
      | none => rw [hml] at hxs; simp at hxs
      | some ys => simp [optionMapList, hfx, hml]

/-- A fallible map over a list fails as soon as one element fails. -/
theorem optionMapList_eq_none {α β : Type} (f : α → Option β) :
    ∀ (l : List α) (x : α), x ∈ l → f x = none → optionMapList f l = none
  | [], x, hx, _ => absurd hx (List.not_mem_nil x)
  | a :: l, x, hx, hfx => by
    rcases List.mem_cons.mp hx with h | h
    · subst h
      simp [optionMapList, hfx]
    · have hl := optionMapList_eq_none f l x h hfx
      cases hfa : f a with
      | none => simp [optionMapList, hfa]
      | some y => simp [optionMapList, hfa, hl]

/-- Counterexample for C4: with a second band whose observed error is 0, the
mean-residual computation and the residual matrix feeding `np.cov` both
evaluate a division by that zero error (the checked computation fails), so
divisions by a zero observed error are not confined to masked-out bands. -/
theorem claim_C4_counterexample :
    mean_residual_checked [⟨10, 1, [10], [10]⟩, ⟨5, 0, [5], [5]⟩] = none ∧
    residual_fluxes_checked [⟨10, 1, [10], [10]⟩, ⟨5, 0, [5], [5]⟩] = none := by
  norm_num [mean_residual_checked, residual_fluxes_checked, optionMapList, qdiv, listMean]

/-- Claim C4 (amended): divisions by an observed flux error in the per-band
and joint p-value computations occur only for bands with error > 0, so no
division by zero is ever evaluated there; but the mean-residual vector
divides by every band's error regardless of the mask, so it does evaluate a
division by zero whenever some band has a zero observed error. -/
theorem claim_C4_amended (bands : List Band) (n : ℕ)
    (b0 : Band) (hmem : b0 ∈ bands) (hz : b0.obsErr = 0) :
    (∀ b ∈ bands, (p_value_band_checked b n).isSome) ∧
    (joint_p_value_checked n bands).isSome ∧
    mean_residual_checked bands = none := by
  have hband : ∀ b : Band, 0 < b.obsErr →
      (obs_discr_checked b).isSome ∧ (repl_discr_checked b).isSome := by
    intro b he
    have hne : b.obsErr ^ 2 ≠ 0 := pow_ne_zero 2 (ne_of_gt he)
    constructor
    · exact optionMapList_isSome _ _ (fun x _ => by simp [qdiv, hne])
    · exact optionMapList_isSome _ _ (fun p _ => by simp [qdiv, hne])
  refine ⟨?_, ?_, ?_⟩
  · intro b hb
    by_cases he : 0 < b.obsErr
    · obtain ⟨hod, hrd⟩ := hband b he
      obtain ⟨od, hod2⟩ := Option.isSome_iff_exists.mp hod
      obtain ⟨rd, hrd2⟩ := Option.isSome_iff_exists.mp hrd
      simp [p_value_band_checked, he, hod2, hrd2]
    · simp [p_value_band_checked, he]
  · have hpos : ∀ b ∈ ok_bands bands, 0 < b.obsErr := by
      intro b hb
      have := (List.mem_filter.mp hb).2
      simpa using this
    have h1 : (optionMapList obs_discr_checked (ok_bands bands)).isSome :=
      optionMapList_isSome _ _ (fun b hb => (hband b (hpos b hb)).1)
    have h2 : (optionMapList repl_discr_checked (ok_bands bands)).isSome :=
      optionMapList_isSome _ _ (fun b hb => (hband b (hpos b hb)).2)
    obtain ⟨ods, hods⟩ := Option.isSome_iff_exists.mp h1
    obtain ⟨rds, hrds⟩ := Option.isSome_iff_exists.mp h2
    simp [joint_p_value_checked, hods, hrds]
  · exact optionMapList_eq_none _ bands b0 hmem (by simp [qdiv, hz])

/-- Witness for C4 (amended) at a one-band list with zero observed error:
its per-band p-value computation evaluates no division, while the
mean-residual computation divides by the zero error and fails. -/
theorem claim_C4_amended_witness :
    (p_value_band_checked ⟨3, 0, [1, 2], [4, 5]⟩ 2).isSome ∧
    mean_residual_checked [⟨3, 0, [1, 2], [4, 5]⟩] = none := by
  have h := claim_C4_amended [⟨3, 0, [1, 2], [4, 5]⟩] 2 ⟨3, 0, [1, 2], [4, 5]⟩
    (List.mem_singleton.mpr rfl) rfl
  exact ⟨h.1 _ (List.mem_singleton.mpr rfl), h.2.2⟩

/-- Zipping two maps of the same list fuses into a single map. -/
theorem zipWith_map_same {α β γ δ : Type} (g : β → γ → δ) (f1 : α → β) (f2 : α → γ) :
    ∀ l : List α, List.zipWith g (l.map f1) (l.map f2) = l.map (fun y => g (f1 y) (f2 y))
  | [] => rfl
  | x :: xs => by simp [zipWith_map_same g f1 f2 xs]

/-- Folding `max` commutes with scaling by a nonnegative factor. -/
theorem foldl_max_mul_right (w : ℚ) (hw : 0 ≤ w) :
    ∀ (xs : List ℚ) (a : ℚ),
      (xs.map (fun y => y * w)).foldl max (a * w) = xs.foldl max a * w
  | [], _ => rfl
  | x :: xs, a => by
    simp only [List.map_cons, List.foldl_cons]
    rw [← max_mul_of_nonneg a x hw]
    exact foldl_max_mul_right w hw xs (max a x)

/-- The maximum of a nonempty list scaled by a nonnegative factor is the
scaled maximum. -/
theorem listMax_map_mul (w : ℚ) (hw : 0 ≤ w) (l : List ℚ) (hne : l ≠ []) :
    listMax (l.map (fun y => y * w)) = listMax l * w := by
  cases l with
  | nil => exact absurd rfl hne
  | cons x xs =>
    simp only [List.map_cons, listMax]
    exact foldl_max_mul_right w hw xs x

/-- The initial value bounds a `max` fold from below. -/
theorem foldl_max_le_init : ∀ (xs : List ℚ) (a : ℚ), a ≤ xs.foldl max a
  | [], a => le_refl a
  | x :: xs, a => le_trans (le_max_left a x) (foldl_max_le_init xs (max a x))

/-- Every member bounds a `max` fold from below. -/
theorem foldl_max_le_mem : ∀ (xs : List ℚ) (a x : ℚ), x ∈ xs → x ≤ xs.foldl max a
  | [], _, x, hx => absurd hx (List.not_mem_nil x)
  | y :: ys, a, x, hx => by
    rcases List.mem_cons.mp hx with h | h
    · subst h
      exact le_trans (le_max_right a x) (foldl_max_le_init ys (max a x))
    · exact foldl_max_le_mem ys (max a y) x h

/-- Every member of a list is at most its `listMax`. -/
theorem le_listMax (l : List ℚ) (x : ℚ) (hx : x ∈ l) : x ≤ listMax l := by
  cases l with
  | nil => exact absurd hx (List.not_mem_nil x)
  | cons y ys =>
    rcases List.mem_cons.mp hx with h | h
    · subst h
      exact foldl_max_le_init ys x
    · exact foldl_max_le_mem ys y x h

/-- The initial value bounds a `min` fold from above. -/
theorem foldl_min_init_le : ∀ (xs : List ℚ) (a : ℚ), xs.foldl min a ≤ a
  | [], a => le_refl a
  | x :: xs, a => le_trans (foldl_min_init_le xs (min a x)) (min_le_left a x)

/-- A `min` fold is at most every member. -/
theorem foldl_min_le_mem : ∀ (xs : List ℚ) (a x : ℚ), x ∈ xs → xs.foldl min a ≤ x
  | [], _, x, hx => absurd hx (List.not_mem_nil x)
  | y :: ys, a, x, hx => by
    rcases List.mem_cons.mp hx with h | h
    · subst h
      exact le_trans (foldl_min_init_le ys (min a x)) (min_le_right a x)
    · exact foldl_min_le_mem ys (min a y) x h

/-- The `listMin` of a list is at most every member. -/
theorem listMin_le (l : List ℚ) (x : ℚ) (hx : x ∈ l) : listMin l ≤ x := by
  cases l with
  | nil => exact absurd hx (List.not_mem_nil x)
  | cons y ys =>
    rcases List.mem_cons.mp hx with h | h
    · subst h
      exact foldl_min_init_le ys x
    · exact foldl_min_le_mem ys y x h

/-- Counterexample for C5: with effective wavelengths `[0, 10, 11]` the
minimum inter-band spacing is 1, but the first band's violin (densities
`[1]`) attains maximum half-width `0.4 * 10 = 4`, not `0.4 * 1`: the code
scales by a band-local spacing, not the global minimum. -/
theorem claim_C5_counterexample :
    listMax (halfWidths (w_scale [0, 10, 11] 0 (listMax [1])) [1])
      ≠ 4 / 10 * spec_min_inter_band_spacing [0, 10, 11] := by
  norm_num [halfWidths, w_scale, dwl, delta_wl, wl_diffs, listMax, listMin,
    spec_min_inter_band_spacing]

/-- Claim C5 (amended): for a non-degenerate band the rendered violin is
symmetric about the band's effective wavelength with half-width at each
support value proportional to the local density, and its maximum half-width
equals 40% of a band-local spacing `dwl` - the consecutive-spacing list with
first entry duplicated, indexed at `i` for `i ≤ 1` and at `i - 1` (the
one-element slice `delta_wl[i-1:i]`) for `i > 1` - not of the global minimum
inter-band spacing. -/
theorem claim_C5_amended (wl : List ℚ) (i : ℕ) (wl_i : ℚ) (y_plot : List ℚ)
    (hne : y_plot ≠ []) (hmax : 0 < listMax y_plot) (hd : 0 ≤ dwl wl i) :
    List.zipWith (fun a b => a + b)
        (violinLeft wl_i (w_scale wl i (listMax y_plot)) y_plot)
        (violinRight wl_i (w_scale wl i (listMax y_plot)) y_plot)
      = y_plot.map (fun _ => wl_i + wl_i) ∧
    List.zipWith (fun b a => b - a)
        (violinRight wl_i (w_scale wl i (listMax y_plot)) y_plot)
        (violinLeft wl_i (w_scale wl i (listMax y_plot)) y_plot)
      = (halfWidths (w_scale wl i (listMax y_plot)) y_plot).map (fun h => h + h) ∧
    listMax (halfWidths (w_scale wl i (listMax y_plot)) y_plot)
      = 4 / 10 * dwl wl i := by
  have hw : 0 ≤ w_scale wl i (listMax y_plot) :=
    div_nonneg (mul_nonneg (by norm_num) hd) (le_of_lt hmax)
  have hM : listMax y_plot ≠ 0 := ne_of_gt hmax
  refine ⟨?_, ?_, ?_⟩
  · rw [violinLeft, violinRight, zipWith_map_same]
    have h1 : (fun y : ℚ => wl_i - y * w_scale wl i (listMax y_plot)
        + (wl_i + y * w_scale wl i (listMax y_plot))) = fun _ : ℚ => wl_i + wl_i := by
      funext y
      ring
    rw [h1]
  · rw [violinLeft, violinRight, zipWith_map_same, halfWidths, List.map_map]
    have h2 : (fun y : ℚ => wl_i + y * w_scale wl i (listMax y_plot)
        - (wl_i - y * w_scale wl i (listMax y_plot)))
        = (fun h : ℚ => h + h) ∘ fun y : ℚ => y * w_scale wl i (listMax y_plot) := by
      funext y
      simp only [Function.comp]
      ring
    rw [h2]
  · rw [halfWidths, listMax_map_mul _ hw _ hne, w_scale, mul_comm]
    exact div_mul_cancel₀ _ hM

/-- Witness for C5 (amended) at wavelengths `[0, 10, 11]`, band 0 centred at
0 with densities `[1, 1/2]`. -/
theorem claim_C5_amended_witness :
    List.zipWith (fun a b => a + b)
        (violinLeft 0 (w_scale [0, 10, 11] 0 (listMax [1, 1 / 2])) [1, 1 / 2])
        (violinRight 0 (w_scale [0, 10, 11] 0 (listMax [1, 1 / 2])) [1, 1 / 2])
      = List.map (fun _ => (0 : ℚ) + 0) [1, 1 / 2] ∧
    List.zipWith (fun b a => b - a)
        (violinRight 0 (w_scale [0, 10, 11] 0 (listMax [1, 1 / 2])) [1, 1 / 2])
        (violinLeft 0 (w_scale [0, 10, 11] 0 (listMax [1, 1 / 2])) [1, 1 / 2])
      = (halfWidths (w_scale [0, 10, 11] 0 (listMax [1, 1 / 2])) [1, 1 / 2]).map
          (fun h => h + h) ∧
    listMax (halfWidths (w_scale [0, 10, 11] 0 (listMax [1, 1 / 2])) [1, 1 / 2])
      = 4 / 10 * dwl [0, 10, 11] 0 :=
  claim_C5_amended [0, 10, 11] 0 0 [1, 1 / 2] (by simp)
    (by norm_num [listMax])
    (by norm_num [dwl, delta_wl, wl_diffs])

/-- Counterexample for C6: with `obs_flux=[100]`, `obs_flux_err=[1]` and
posterior-draw flux range `[0, 1]`, the upper axis limit computed by the code
ignores the observed upper bound `101`, so the limits differ from the
spec-side union rule. -/
theorem claim_C6_counterexample :
    axis_y_limits [100] [1] [0] [1] ≠ spec_axis_y_limits [100] [1] [0] [1] := by
  norm_num [axis_y_limits, spec_axis_y_limits, obs_lower_bounds, obs_upper_bounds,
    listMin, listMax, Prod.ext_iff]

/-- Claim C6 (amended): the lower y-axis limit is derived from the union of
the observed lower bounds (observed flux minus error, over bands with
error > 0) and the predicted per-band minima, but the upper limit is derived
from the predicted per-band maxima alone (the observed flux plus error never
enters); both are padded by 10% of the resulting (not the union) range. -/
theorem claim_C6_amended (obs_flux obs_flux_err min_flux max_flux : List ℚ) :
    (axis_y_limits obs_flux obs_flux_err min_flux max_flux).2
        = listMax max_flux
          + (listMax max_flux
              - listMin (obs_lower_bounds obs_flux obs_flux_err ++ min_flux)) * (1 / 10) ∧
    (axis_y_limits obs_flux obs_flux_err min_flux max_flux).1
        = listMin (obs_lower_bounds obs_flux obs_flux_err ++ min_flux)
          - (listMax max_flux
              - listMin (obs_lower_bounds obs_flux obs_flux_err ++ min_flux)) * (1 / 10) ∧
    (∀ x ∈ max_flux, x ≤ listMax max_flux) ∧
    (∀ b ∈ obs_lower_bounds obs_flux obs_flux_err ++ min_flux,
        listMin (obs_lower_bounds obs_flux obs_flux_err ++ min_flux) ≤ b) :=
  ⟨rfl, rfl, fun x hx => le_listMax _ x hx, fun b hb => listMin_le _ b hb⟩

/-- Witness for C6 (amended) at `obs_flux=[100]`, `obs_flux_err=[1]`,
`min_flux=[0]`, `max_flux=[1]`. -/
theorem claim_C6_amended_witness :
    (axis_y_limits [100] [1] [0] [1]).2
        = listMax [(1 : ℚ)]
          + (listMax [(1 : ℚ)] - listMin (obs_lower_bounds [100] [1] ++ [0])) * (1 / 10) ∧
    (1 : ℚ) ≤ listMax [(1 : ℚ)] := by
  have h := claim_C6_amended [100] [1] [0] [1]
  exact ⟨h.1, h.2.2.1 1 (List.mem_singleton.mpr rfl)⟩

/-- Claim C7: when the target artifact already exists and `replot=False` (and
`show=False` for the marginal plotter), both plotters return immediately
with no computation and no write; with `replot=True` the existence check is
bypassed and the plot is recomputed and written regardless. -/
theorem claim_C7 :
    plot_marginal_effects true false false = [] ∧
    plot_replicated_effects true false = [] ∧
    ∀ already : Bool,
      plot_marginal_effects already true false
          = [PlotEffect.compute, PlotEffect.write] ∧
      plot_replicated_effects already true = [PlotEffect.compute, PlotEffect.write] := by
  decide

/-- Lookup in a constant list returns that constant even as `getD` default. -/
theorem getD_replicate_self {α : Type} (a : α) :
    ∀ n i : ℕ, (List.replicate n a).getD i a = a
  | 0, _ => rfl
  | _ + 1, 0 => rfl
  | n + 1, i + 1 => getD_replicate_self a n i

/-- Mapping a constant function produces a constant list. -/
theorem map_const_eq_replicate {α β : Type} (b : β) :
    ∀ l : List α, l.map (fun _ => b) = List.replicate l.length b
  | [] => rfl
  | _ :: xs => by simp [map_const_eq_replicate b xs, List.replicate_succ]

/-- Claim C8: the marker-styling step assigns the circle marker to every band
for every possible vector of per-band p-values - the threshold comparison
`p_value_bands <= p_value_lim` writes the same marker that the array was
initialised with, so it never changes any marker. -/
theorem claim_C8 (p_values : List ℚ) :
    style_markers p_values = List.replicate p_values.length "o" := by
  have hf : ∀ i ∈ List.range p_values.length,
      (if p_values.getD i 0 ≤ p_value_lim then "o"
        else (List.replicate p_values.length "o").getD i "o") = "o" := by
    intro i _
    by_cases h : p_values.getD i 0 ≤ p_value_lim
    · rw [if_pos h]
    · rw [if_neg h]
      exact getD_replicate_self "o" p_values.length i
  calc style_markers p_values
      = (List.range p_values.length).map (fun _ => "o") := by
        simp only [style_markers]
        exact List.map_congr_left hf
    _ = List.replicate p_values.length "o" := by
        rw [map_const_eq_replicate, List.length_range]

/-- Claim C9: the observed fluxes and errors used by the plotters are
independent of the catalogue's `aper_corr` column: the locally computed
correction factor is never passed to `extract_fluxes` (which runs with its
default `aper_corr=1`), so rows differing only in `aper_corr` yield
identical flux and error arrays, for every square-root realisation and
filter configuration. -/
theorem claim_C9 (sqrtQ : ℚ → ℚ) (filters : FiltersData) (row : CatalogueRow) (a : ℚ) :
    plotter_obs_fluxes sqrtQ filters (set_aper_corr row a)
      = plotter_obs_fluxes sqrtQ filters row := rfl

/-- Claim C10: a band whose observed flux error is 0 keeps the p-value
initialisation value 0 (its computation is skipped), and is therefore among
the indices selected as being at or below the poor-fit threshold
`p_value_lim`. -/
theorem claim_C10 (bands : List Band) (n : ℕ) (i : ℕ) (hi : i < bands.length)
    (hz : bands[i].obsErr = 0) :
    (p_value_bands bands n).getD i 1 = 0 ∧
    i ∈ below_threshold_indices (p_value_bands bands n) := by
  have hlen : (p_value_bands bands n).length = bands.length := List.length_map _ _
  have hpz : p_value_band bands[i] n = 0 := by
    rw [p_value_band, if_neg]
    rw [hz]
    exact lt_irrefl 0
  have hi2 : i < (p_value_bands bands n).length := by rw [hlen]; exact hi
  have hval : ∀ d : ℚ, (p_value_bands bands n).getD i d = 0 := by
    intro d
    rw [List.getD_eq_getElem _ _ hi2]
    simp [p_value_bands, hpz]
  refine ⟨hval 1, ?_⟩
  rw [below_threshold_indices]
  rw [List.mem_filter]
  refine ⟨List.mem_range.mpr hi2, ?_⟩
  rw [hval 0]
  simp only [decide_eq_true_eq, p_value_lim]
  norm_num

/-- Witness for C10 at a single band with `obs_flux_err = 0`. -/
theorem claim_C10_witness :
    (p_value_bands [⟨7, 0, [1], [2]⟩] 1).getD 0 1 = 0 ∧
    0 ∈ below_threshold_indices (p_value_bands [⟨7, 0, [1], [2]⟩] 1) :=
  claim_C10 [⟨7, 0, [1], [2]⟩] 1 0 (by simp) rfl

end PypBeagle
